import Mathlib

/-!
Verification development for the INTERPOL notice scrapers
(`scrape_yellow_notices.py`, `yellow_scraper.py`, `main.py`).

The Python scripts are shallowly embedded: JSON values become the
inductive `JValue`, Python dicts become association lists, stateful
loops become explicit state passing with fuel, and HTTP traffic is
abstracted into oracle functions supplied as parameters.  Code paths
on which Python raises an uncaught exception (for example calling
`.get` on a non-dict) are modelled by `Option`, with `none` standing
for the crash.
-/

/-- A parsed JSON value, as produced by Python's `json.loads`. -/
inductive JValue where
  | jnull
  | jbool (b : Bool)
  | jnum (n : Int)
  | jstr (s : String)
  | jarr (items : List JValue)
  | jobj (fields : List (String × JValue))

/-- A Python dict holding parsed JSON (string keys, JSON values). -/
abbrev JObj := List (String × JValue)

/-- A flattened notice record: a Python dict built by one of the scripts. -/
abbrev Record := List (String × JValue)

/-- True exactly for the JSON null value (Python `None`). -/
def JValue.isNull : JValue → Bool
  | .jnull => true
  | _ => false

/-- True exactly for JSON strings (Python `str` values). -/
def JValue.isStr : JValue → Bool
  | .jstr _ => true
  | _ => false

mutual

/-- Python `==` on parsed JSON values: structural, and `False` across types
(we model numbers by `Int` only, so no numeric cross-type cases arise). -/
def jeq : JValue → JValue → Bool
  | .jnull, .jnull => true
  | .jbool a, .jbool b => a == b
  | .jnum a, .jnum b => a == b
  | .jstr a, .jstr b => a == b
  | .jarr a, .jarr b => jeqList a b
  | .jobj a, .jobj b => jeqFields a b
  | _, _ => false

/-- Pointwise `jeq` on JSON arrays. -/
def jeqList : List JValue → List JValue → Bool
  | [], [] => true
  | x :: xs, y :: ys => jeq x y && jeqList xs ys
  | _, _ => false

/-- Pointwise `jeq` on JSON object field lists. -/
def jeqFields : List (String × JValue) → List (String × JValue) → Bool
  | [], [] => true
  | (k, x) :: xs, (l, y) :: ys => k == l && jeq x y && jeqFields xs ys
  | _, _ => false

end

/-- Python set membership (`key in seen_ids`), using Python equality. -/
def jmem (v : JValue) (l : List JValue) : Bool :=
  l.any (jeq v)

mutual

/-- Python `repr` of a parsed JSON value (string escaping elided: none of
the claims depends on the rendering of quotes inside strings). -/
def pyRepr : JValue → String
  | .jnull => "None"
  | .jbool true => "True"
  | .jbool false => "False"
  | .jnum n => toString n
  | .jstr s => "\x27" ++ s ++ "\x27"
  | .jarr items => "[" ++ String.intercalate ", " (pyReprList items) ++ "]"
  | .jobj fields => "\x7b" ++ String.intercalate ", " (pyReprFields fields) ++ "\x7d"

/-- Python `repr` of each element of a JSON array. -/
def pyReprList : List JValue → List String
  | [] => []
  | x :: xs => pyRepr x :: pyReprList xs

/-- Python `repr` of each `key: value` pair of a JSON object. -/
def pyReprFields : List (String × JValue) → List String
  | [] => []
  | (k, v) :: xs => ("\x27" ++ k ++ "\x27: " ++ pyRepr v) :: pyReprFields xs

end

/-- Python `str()` of a parsed JSON value: the string itself for strings,
`repr` otherwise. -/
def pyStr : JValue → String
  | .jstr s => s
  | v => pyRepr v

/-- Python truthiness of a parsed JSON value. -/
def pyTruthy : JValue → Bool
  | .jnull => false
  | .jbool b => b
  | .jnum n => n != 0
  | .jstr s => s != ""
  | .jarr items => !items.isEmpty
  | .jobj fields => !fields.isEmpty

/-- Python `a or b` on JSON values. -/
def pyOr (a b : JValue) : JValue :=
  if pyTruthy a then a else b

/-- Python `a or b` on strings (`a` is kept when non-empty). -/
def pyOrS (a b : String) : String :=
  if a = "" then b else a

/-- Python `d.get(key, default)` on a dict of parsed JSON. -/
def pyGetD (d : JObj) (key : String) (dflt : JValue) : JValue :=
  (d.lookup key).getD dflt

/-- Using a JSON value as a dict: `some` of its fields when it is an
object, `none` (an `AttributeError` crash on `.get`) otherwise. -/
def getObjOrCrash : JValue → Option JObj
  | .jobj o => some o
  | _ => none

/-- Python `str.strip()` with no argument: remove leading and trailing
whitespace. -/
def pyStrip (s : String) : String :=
  String.mk
    (((s.data.dropWhile Char.isWhitespace).reverse.dropWhile
        Char.isWhitespace).reverse)

/- ----------------------------------------------------------------- -/
/- scrape_yellow_notices.py                                          -/
/- ----------------------------------------------------------------- -/

/-- Model of `MAX_RESULTS_PER_PAGE` (scrape_yellow_notices.py). -/
def MAX_RESULTS_PER_PAGE : Nat := 160

/-- Model of `SEGMENT_THRESHOLD` (scrape_yellow_notices.py): maximum result size
before slicing the segment further. -/
def SEGMENT_THRESHOLD : Nat := 320

/-- Model of `RETRY_LIMIT` (scrape_yellow_notices.py). -/
def RETRY_LIMIT : Nat := 5

/-- Model of `BACKOFF_FACTOR` (scrape_yellow_notices.py): the Python float 1.5,
exactly representable, modelled as the rational 3/2. -/
def BACKOFF_FACTOR : ℚ := 3 / 2

/-- Model of `SEX_SEGMENTS` (scrape_yellow_notices.py). -/
def SEX_SEGMENTS : List String := ["M", "F", "U"]

/-- Model of `OUTPUT_FIELDS` (scrape_yellow_notices.py). -/
def OUTPUT_FIELDS : List String :=
  [ "entity_id", "name", "forename", "birth_name", "date_of_birth",
    "place_of_birth", "country_of_birth", "nationalities", "sex",
    "height", "weight", "eyes_colors", "hairs", "distinguishing_marks",
    "father_forename", "father_name", "mother_forename", "mother_name",
    "date_of_event", "place", "country", "languages", "issuing_country",
    "countries_likely_visited", "url", "images_url", "thumbnail_url" ]

/-- The dataclass `Segment` (scrape_yellow_notices.py).  Ages are Python
ints; the scraper only ever builds segments with ages in 0..120 (the
initial segment and its splits), so they are modelled as `Nat`, on which
Lean's `/` agrees with Python's floor division `//`. -/
structure Segment where
  age_min : Nat
  age_max : Nat
  sex : Option String := none
deriving DecidableEq

/-- Model of `Segment.split` (scrape_yellow_notices.py): `none` models the
`raise RequestError` branch. -/
def Segment.split (s : Segment) : Option (List Segment) :=
  if s.age_min < s.age_max then
    let mid := (s.age_min + s.age_max) / 2
    some [ { age_min := s.age_min, age_max := mid, sex := s.sex },
           { age_min := mid + 1, age_max := s.age_max, sex := s.sex } ]
  else if s.sex = none then
    some (SEX_SEGMENTS.map fun sx => { age_min := s.age_min, age_max := s.age_max, sex := some sx })
  else
    none

/-- Model of `Segment.label` (scrape_yellow_notices.py): `self.sex or "*"`, so an
empty-string sex also renders as `*`. -/
def Segment.label (s : Segment) : String :=
  "age=" ++ toString s.age_min ++ "-" ++ toString s.age_max ++ "|sex=" ++
    (match s.sex with
     | some t => if t = "" then "*" else t
     | none => "*")

/-- The segments a successful `Segment.split` returns (empty when split
raises `RequestError`). -/
def splitChildren (s : Segment) : List Segment :=
  (s.split).getD []

/-- Termination measure for splitting: twice the age-range width plus one
when the sex is still unassigned. -/
def segMeasure (s : Segment) : Nat :=
  2 * (s.age_max - s.age_min) + (if s.sex = none then 1 else 0)

/- ProgressTracker ------------------------------------------------- -/

/-- The in-memory state of `ProgressTracker` (scrape_yellow_notices.py):
the set of processed segment labels, as a list with set semantics. -/
structure ProgressTracker where
  processed_segments : List String

/-- Constructor `ProgressTracker.__init__` / `_load`: build the tracker from the
progress file's content (`none` = file absent, unreadable, or invalid
JSON, all of which leave the set empty).  `_flush` only ever writes an
object whose `processed_segments` is an array of strings; other shapes
(which would crash or load inert non-string members that can never equal
a segment label, since Python `==` across types is `False`) are mapped
to the same observable `is_done` behaviour. -/
def ProgressTracker.load (content : Option JValue) : ProgressTracker :=
  match content with
  | some (.jobj data) =>
    match data.lookup "processed_segments" with
    | some (.jarr items) =>
      { processed_segments :=
          items.filterMap fun v => match v with | .jstr s => some s | _ => none }
    | _ => { processed_segments := [] }
  | _ => { processed_segments := [] }

/-- Model of `ProgressTracker.is_done` (scrape_yellow_notices.py). -/
def ProgressTracker.is_done (t : ProgressTracker) (s : Segment) : Bool :=
  t.processed_segments.contains s.label

/-- The in-memory effect of `ProgressTracker.mark_done`: add the label to
the set. -/
def ProgressTracker.mark_set (t : ProgressTracker) (s : Segment) : ProgressTracker :=
  { processed_segments := t.processed_segments.insert s.label }

/-- The JSON payload `_flush` writes to the progress file: a timestamp
and the sorted label set. -/
def flushPayload (now : String) (segs : List String) : JValue :=
  .jobj [ ("timestamp", .jstr now),
          ("processed_segments", .jarr ((segs.mergeSort fun a b => decide (a ≤ b)).map .jstr)) ]

/-- Model of `ProgressTracker.mark_done` (scrape_yellow_notices.py): adds the
segment's label to the set and flushes it to disk; returns the new
tracker and the file content written (`now` is the wall-clock timestamp,
passed as a parameter). -/
def ProgressTracker.mark_done (t : ProgressTracker) (s : Segment) (now : String) :
    ProgressTracker × JValue :=
  ((t.mark_set s), flushPayload now (t.mark_set s).processed_segments)

/- http_get_json --------------------------------------------------- -/

/-- The outcome of one HTTP attempt inside `http_get_json`
(scrape_yellow_notices.py): a transport failure (`HTTPError`/`URLError`),
a body `json.loads` rejects, or a parsed payload. -/
inductive HttpAttempt where
  | transportError
  | badJson
  | ok (v : JValue)

/-- What `http_get_json` does: return a payload or raise `RequestError`. -/
inductive HttpResult where
  | ret (v : JValue)
  | raiseRequestError

/-- The retry loop of `http_get_json` (scrape_yellow_notices.py).  The
fuel argument counts the remaining iterations of
`for attempt in range(1, RETRY_LIMIT + 1)`; exhausting it reaches the
trailing `return {}`.  The second component records the back-off sleeps,
in seconds, in order. -/
def http_get_json_go (att : Nat → HttpAttempt) : Nat → Nat → HttpResult × List ℚ
  | 0, _ => (.ret (.jobj []), [])
  | fuel + 1, attempt =>
    match att attempt with
    | .ok v => (.ret v, [])
    | .badJson => (.raiseRequestError, [])
    | .transportError =>
      if attempt = RETRY_LIMIT then (.raiseRequestError, [])
      else
        let r := http_get_json_go att fuel (attempt + 1)
        (r.1, BACKOFF_FACTOR ^ attempt :: r.2)

/-- Model of `http_get_json` (scrape_yellow_notices.py), with the network
abstracted as the outcome of each numbered attempt. -/
def http_get_json (att : Nat → HttpAttempt) : HttpResult × List ℚ :=
  http_get_json_go att RETRY_LIMIT 1

/- safe_get / merge_notice ----------------------------------------- -/

/-- Model of `safe_get` (scrape_yellow_notices.py). -/
def safe_get (container : JObj) (key : String) : String :=
  match container.lookup key with
  | none => ""
  | some .jnull => ""
  | some (.jarr items) =>
    String.intercalate ";" ((items.filter fun v => !v.isNull).map pyStr)
  | some v => pyStr v

/-- The call `links.get(key, {})` inside `merge_notice`, followed by `safe_get`
using the result as a dict: a present non-dict value makes `safe_get`
call `.get` on it and crash (`none`). -/
def linkGet (links : JObj) (key : String) : Option JObj :=
  match links.lookup key with
  | none => some []
  | some (.jobj o) => some o
  | some _ => none

/-- The `_links` dict of the details payload inside `merge_notice`:
`details.get("_links", {})`, falling back to `{}` when the value is not
a dict (the `isinstance` guards). -/
def mergeLinks (details : JObj) : JObj :=
  match details.lookup "_links" with
  | some (.jobj l) => l
  | _ => []

/-- The dict literal `merge_notice` returns, given the three resolved
link sub-dicts. -/
def merge_fields (notice details selfObj imagesObj thumbObj : JObj) : Record :=
  [ ("entity_id", .jstr (pyStr (pyGetD notice "entity_id" (.jstr "")))),
    ("name", .jstr (pyOrS (safe_get details "name") (safe_get notice "name"))),
    ("forename", .jstr (pyOrS (safe_get details "forename") (safe_get notice "forename"))),
    ("birth_name", .jstr (safe_get details "birth_name")),
    ("date_of_birth", .jstr (pyOrS (safe_get details "date_of_birth") (safe_get notice "date_of_birth"))),
    ("place_of_birth", .jstr (safe_get details "place_of_birth")),
    ("country_of_birth", .jstr (safe_get details "country_of_birth_id")),
    ("nationalities", .jstr (pyOrS (safe_get details "nationalities") (safe_get notice "nationalities"))),
    ("sex", .jstr (pyOrS (safe_get details "sex_id") (safe_get notice "sex_id"))),
    ("height", .jstr (safe_get details "height")),
    ("weight", .jstr (safe_get details "weight")),
    ("eyes_colors", .jstr (safe_get details "eyes_colors_id")),
    ("hairs", .jstr (safe_get details "hairs_id")),
    ("distinguishing_marks", .jstr (safe_get details "distinguishing_marks")),
    ("father_forename", .jstr (safe_get details "father_forename")),
    ("father_name", .jstr (safe_get details "father_name")),
    ("mother_forename", .jstr (safe_get details "mother_forename")),
    ("mother_name", .jstr (safe_get details "mother_name")),
    ("date_of_event", .jstr (safe_get details "date_of_event")),
    ("place", .jstr (safe_get details "place")),
    ("country", .jstr (safe_get details "country")),
    ("languages", .jstr (safe_get details "languages_spoken_ids")),
    ("issuing_country", .jstr (safe_get details "issuing_country")),
    ("countries_likely_visited", .jstr (safe_get details "countries_likely_to_be_visited")),
    ("url", .jstr (safe_get selfObj "href")),
    ("images_url", .jstr (safe_get imagesObj "href")),
    ("thumbnail_url", .jstr (safe_get thumbObj "href")) ]

/-- Model of `merge_notice` (scrape_yellow_notices.py): `none` models the crash
when a `_links` entry is present but not a dict. -/
def merge_notice (notice details : JObj) : Option Record :=
  match linkGet (mergeLinks details) "self", linkGet (mergeLinks details) "images",
      linkGet (mergeLinks details) "thumbnail" with
  | some selfObj, some imagesObj, some thumbObj =>
    some (merge_fields notice details selfObj imagesObj thumbObj)
  | _, _, _ => none

/-- The entity id a record carries: the string stored under
`entity_id` (all records built by the scripts store a string there). -/
def record_eid (r : Record) : String :=
  match r.lookup "entity_id" with
  | some (.jstr s) => s
  | _ => ""

/- collect_notices ------------------------------------------------- -/

/-- The HTTP-dependent callees of `collect_notices`, abstracted: the
total reported for a segment (`query_total`), the raw notices
`fetch_segment` returns, the details payload `fetch_details` returns
per entity id, and the progress file's content at start-up.  The API
reports non-negative totals, modelled as `Nat`. -/
structure ScrapeEnv where
  query_total : Segment → Nat
  fetch_segment : Segment → Nat → List JObj
  fetch_details : String → JObj
  progress_content : Option JValue

/-- The state of the `collect_notices` loop.  `pending` is the Python
list reversed, so that `pending.pop()` (which pops the last element)
becomes taking the head.  `fetch_log` is instrumentation recording each
`fetch_segment(segment, total)` invocation. -/
structure CollectState where
  pending : List Segment
  tracker : ProgressTracker
  seen_ids : List String
  aggregated : List Record
  fetch_log : List (Segment × Nat)

/-- How a run of `collect_notices` ends: the loop finished, the fuel ran
out (the loop is still running), or the run raised (`RequestError` from
`Segment.split`, or a crash inside `merge_notice`). -/
inductive CollectOut where
  | finished (st : CollectState)
  | fuelOut (st : CollectState)
  | raised (st : CollectState)

/-- The state carried by a `CollectOut`. -/
def CollectOut.state : CollectOut → CollectState
  | .finished st => st
  | .fuelOut st => st
  | .raised st => st

/-- The inner `for notice in raw_notices` loop of `collect_notices`:
dedup by entity id, hydrate with details, merge.  `none` models a crash
inside `merge_notice`. -/
def process_notices (env : ScrapeEnv) :
    List JObj → List String → List Record → Option (List String × List Record)
  | [], seen, agg => some (seen, agg)
  | notice :: rest, seen, agg =>
    let entity_id := pyStr (pyGetD notice "entity_id" (.jstr ""))
    if entity_id = "" ∨ seen.contains entity_id then
      process_notices env rest seen agg
    else
      match merge_notice notice (env.fetch_details entity_id) with
      | none => none
      | some record => process_notices env rest (entity_id :: seen) (agg ++ [record])

/-- The `while pending` loop of `collect_notices`, with fuel.
`children.reverse ++ rest` models `pending.extend(...)` under the
reversed-list representation of the Python stack. -/
def collect_loop (env : ScrapeEnv) : Nat → CollectState → CollectOut
  | 0, st => .fuelOut st
  | fuel + 1, st =>
    match st.pending with
    | [] => .finished st
    | segment :: rest =>
      if st.tracker.is_done segment then
        collect_loop env fuel { st with pending := rest }
      else
        let total := env.query_total segment
        if total = 0 then
          collect_loop env fuel
            { st with pending := rest, tracker := st.tracker.mark_set segment }
        else if SEGMENT_THRESHOLD < total then
          match segment.split with
          | none => .raised { st with pending := rest }
          | some children =>
            collect_loop env fuel { st with pending := children.reverse ++ rest }
        else
          let raw := env.fetch_segment segment total
          match process_notices env raw st.seen_ids st.aggregated with
          | none =>
            .raised { st with pending := rest, fetch_log := st.fetch_log ++ [(segment, total)] }
          | some (seen, agg) =>
            collect_loop env fuel
              { pending := rest
                tracker := st.tracker.mark_set segment
                seen_ids := seen
                aggregated := agg
                fetch_log := st.fetch_log ++ [(segment, total)] }

/-- Model of `collect_notices` (scrape_yellow_notices.py): start from the full
age spectrum with a tracker loaded from the progress file. -/
def collect_notices (env : ScrapeEnv) (fuel : Nat) : CollectOut :=
  collect_loop env fuel
    { pending := [{ age_min := 0, age_max := 120, sex := none }]
      tracker := ProgressTracker.load env.progress_content
      seen_ids := []
      aggregated := []
      fetch_log := [] }

/- ----------------------------------------------------------------- -/
/- main.py                                                           -/
/- ----------------------------------------------------------------- -/

/-- Model of `safe_join` inside `extract_notice_info` (main.py): joins a list
with a comma, stringifies any other truthy value, and yields `N/A`
otherwise.  The argument is the raw `notice.get(key)` value, with
`jnull` standing for both an absent key and a JSON null. -/
def safe_join (data : JValue) : String :=
  match data with
  | .jarr items => String.intercalate ", " (items.map pyStr)
  | v => if pyTruthy v then pyStr v else "N/A"

/-- Model of `extract_notice_info` (main.py): raw payload values with an `N/A`
default; only the two joined fields are stringified. -/
def extract_notice_info (notice : JObj) : Record :=
  [ ("entity_id", pyGetD notice "entity_id" (.jstr "N/A")),
    ("name", pyGetD notice "name" (.jstr "N/A")),
    ("forename", pyGetD notice "forename" (.jstr "N/A")),
    ("date_of_birth", pyGetD notice "date_of_birth" (.jstr "N/A")),
    ("nationalities", .jstr (safe_join (pyGetD notice "nationalities" .jnull))),
    ("place_of_birth", pyGetD notice "place_of_birth" (.jstr "N/A")),
    ("country_of_birth", pyGetD notice "country_of_birth_id" (.jstr "N/A")),
    ("sex", pyGetD notice "sex_id" (.jstr "N/A")),
    ("weight", pyGetD notice "weight" (.jstr "N/A")),
    ("height", pyGetD notice "height" (.jstr "N/A")),
    ("eyes_colors", .jstr (safe_join (pyGetD notice "eyes_colors_id" .jnull))),
    ("hairs_colors", .jstr (safe_join (pyGetD notice "hairs_id" .jnull))) ]

/-- The 12 keys `extract_notice_info` always returns. -/
def EXTRACT_FIELDS : List String :=
  [ "entity_id", "name", "forename", "date_of_birth", "nationalities",
    "place_of_birth", "country_of_birth", "sex", "weight", "height",
    "eyes_colors", "hairs_colors" ]

/- ----------------------------------------------------------------- -/
/- yellow_scraper.py                                                 -/
/- ----------------------------------------------------------------- -/

/-- Model of `RESULTS_PER_PAGE` (yellow_scraper.py). -/
def RESULTS_PER_PAGE : Nat := 160

/-- The CSV fieldnames of `run` (yellow_scraper.py): the fixed 27-key
shape of the rows `fetch_all_pages_for_filters` builds. -/
def YELLOW_FIELDNAMES : List String :=
  [ "name", "forename", "birth_name", "date_of_birth", "place_of_birth",
    "country_of_birth", "nationality", "nationalities", "sex", "height",
    "weight", "eyes_colors", "hairs", "distinguishing_marks", "date_of_event",
    "place", "country", "languages", "father_forename", "mother_forename",
    "mother_name", "age_min", "age_max", "entity_id", "url", "images_url",
    "thumbnail_url" ]

/-- Model of `iter_notices` (yellow_scraper.py): the dict items of
`data["_embedded"]["notices"]`.  A non-dict `data` crashes (`.get` on
it), a non-dict `_embedded` is guarded to `[]`, a string `notices`
iterates to characters (no dicts), a dict iterates to its string keys
(no dicts), and any other non-list `notices` raises `TypeError`. -/
def iter_notices (data : JValue) : Option (List JObj) :=
  match data with
  | .jobj d =>
    match (d.lookup "_embedded").getD (.jobj []) with
    | .jobj emb =>
      match (emb.lookup "notices").getD (.jarr []) with
      | .jarr items =>
        some (items.filterMap fun v => match v with | .jobj o => some o | _ => none)
      | .jstr _ => some []
      | .jobj _ => some []
      | _ => none
    | _ => some []
  | _ => none

/-- The chain `item.get("_links", {}).get(key, {}).get("href", "")`
(yellow_scraper.py): the raw href value, or `none` when an intermediate
value is present but not a dict (Python crashes on `.get`). -/
def item_link_href (item : JObj) (key : String) : Option JValue :=
  match getObjOrCrash (pyGetD item "_links" (.jobj [])) with
  | none => none
  | some links =>
    match getObjOrCrash (pyGetD links key (.jobj [])) with
    | none => none
    | some sub => some (pyGetD sub "href" (.jstr ""))

/-- Python `sep.join(x)`: joining a string iterates its characters,
joining a list requires every element to be a string (`TypeError`
otherwise, modelled as `none`), joining a dict iterates its keys
(strings, for parsed JSON), and everything else is not iterable. -/
def pyJoin (sep : String) (v : JValue) : Option String :=
  match v with
  | .jstr s => some (String.intercalate sep (s.toList.map String.singleton))
  | .jarr items =>
    Option.map (String.intercalate sep)
      (items.mapM fun x => match x with | .jstr t => some t | _ => none)
  | .jobj fields => some (String.intercalate sep (fields.map Prod.fst))
  | _ => none

/-- Python `str(x)` of an `Optional[str]` in an f-string (yellow_scraper.py). -/
def optPyStr : Option String → String
  | some s => s
  | none => "None"

/-- Python `str(x)` of an `Optional[int]` in an f-string (yellow_scraper.py). -/
def optIntPyStr : Option Int → String
  | some n => toString n
  | none => "None"

/-- The row dict literal of `fetch_all_pages_for_filters`
(yellow_scraper.py), given the pre-computed entity id, raw link values
and join results. -/
def yellow_row_fields (nationality : Option String) (age_min age_max : Option Int)
    (sex_id : Option String) (item : JObj) (eid : String)
    (nurl imagesUrl thumbUrl : JValue)
    (nats eyes hairs langs : String) : Record :=
  [ ("name", pyGetD item "name" (.jstr "")),
    ("forename", pyGetD item "forename" (.jstr "")),
    ("birth_name", pyGetD item "birth_name" (.jstr "")),
    ("date_of_birth", pyGetD item "date_of_birth" (.jstr "")),
    ("place_of_birth", pyGetD item "place_of_birth" (.jstr "")),
    ("country_of_birth", pyGetD item "country_of_birth_id" (.jstr "")),
    ("nationality", .jstr (nationality.getD "")),
    ("nationalities", .jstr nats),
    ("sex", match sex_id with
            | some s => if s = "" then pyGetD item "sex_id" (.jstr "") else .jstr s
            | none => pyGetD item "sex_id" (.jstr "")),
    ("height", pyGetD item "height" (.jstr "")),
    ("weight", pyGetD item "weight" (.jstr "")),
    ("eyes_colors", .jstr eyes),
    ("hairs", .jstr hairs),
    ("distinguishing_marks", pyGetD item "distinguishing_marks" (.jstr "")),
    ("date_of_event", pyGetD item "date_of_event" (.jstr "")),
    ("place", pyGetD item "place" (.jstr "")),
    ("country", pyGetD item "country" (.jstr "")),
    ("languages", .jstr langs),
    ("father_forename", pyGetD item "father_forename" (.jstr "")),
    ("mother_forename", pyGetD item "mother_forename" (.jstr "")),
    ("mother_name", pyGetD item "mother_name" (.jstr "")),
    ("age_min", match age_min with | some n => .jnum n | none => .jstr ""),
    ("age_max", match age_max with | some n => .jnum n | none => .jstr ""),
    ("entity_id", .jstr eid),
    ("url", nurl),
    ("images_url", imagesUrl),
    ("thumbnail_url", thumbUrl) ]

/-- The per-item body of the page loop of `fetch_all_pages_for_filters`
(yellow_scraper.py): the dedup key and the row.  `none` models a crash
(non-dict link value, or joining a list with non-string members). -/
def yellow_row (nationality : Option String) (age_min age_max : Option Int)
    (sex_id : Option String) (page : Nat) (item : JObj) :
    Option (JValue × Record) :=
  let eid := pyStrip (pyStr (pyOr (pyGetD item "entity_id" .jnull)
      (pyOr (pyGetD item "id" .jnull) (.jstr ""))))
  match item_link_href item "self",
      pyJoin ";" (pyGetD item "nationalities" (.jarr [])),
      pyJoin ";" (pyGetD item "eyes_colors_id" (.jarr [])),
      pyJoin ";" (pyGetD item "hairs_id" (.jarr [])),
      pyJoin ";" (pyGetD item "languages_spoken_ids" (.jarr [])),
      item_link_href item "images", item_link_href item "thumbnail" with
  | some nurl, some nats, some eyes, some hairs, some langs, some imagesUrl,
      some thumbUrl =>
    some (pyOr (.jstr eid) (pyOr nurl
        (.jstr (optPyStr nationality ++ "|" ++ optPyStr sex_id ++ "|" ++
                optIntPyStr age_min ++ "|" ++ toString page ++ "|" ++
                pyStr (pyGetD item "name" (.jstr ""))))),
      yellow_row_fields nationality age_min age_max sex_id item eid
        nurl imagesUrl thumbUrl nats eyes hairs langs)
  | _, _, _, _, _, _, _ => none

/-- The `for item in iter_notices(data)` loop of
`fetch_all_pages_for_filters`: dedup against the shared `seen_ids` set,
append rows in order. -/
def yellow_items_loop (nationality : Option String) (age_min age_max : Option Int)
    (sex_id : Option String) (page : Nat) :
    List JObj → List JValue → List Record → Option (List JValue × List Record)
  | [], seen, rows => some (seen, rows)
  | item :: rest, seen, rows =>
    match yellow_row nationality age_min age_max sex_id page item with
    | none => none
    | some (key, row) =>
      if jmem key seen then
        yellow_items_loop nationality age_min age_max sex_id page rest seen rows
      else
        yellow_items_loop nationality age_min age_max sex_id page rest
          (key :: seen) (rows ++ [row])

/-- The `for page in range(1, num_pages + 1)` loop of
`fetch_all_pages_for_filters`, with the HTTP responses abstracted as
`page_data`.  The first argument is the number of pages left. -/
def yellow_pages_loop (nationality : Option String) (age_min age_max : Option Int)
    (sex_id : Option String) (page_data : Nat → JValue) :
    Nat → Nat → List JValue → List Record → Option (List JValue × List Record)
  | 0, _, seen, rows => some (seen, rows)
  | n + 1, page, seen, rows =>
    match iter_notices (page_data page) with
    | none => none
    | some items =>
      match yellow_items_loop nationality age_min age_max sex_id page
          items seen rows with
      | none => none
      | some (seen2, rows2) =>
        yellow_pages_loop nationality age_min age_max sex_id page_data n (page + 1)
          seen2 rows2

/-- Model of `fetch_all_pages_for_filters` (yellow_scraper.py), with the queried
total and the page payloads abstracted.  Returns the updated shared
`seen_ids` set together with the rows built by this call. -/
def fetch_all_pages_for_filters (nationality : Option String)
    (age_min age_max : Option Int) (sex_id : Option String)
    (total : Nat) (page_data : Nat → JValue) (seen : List JValue) :
    Option (List JValue × List Record) :=
  if total = 0 then some (seen, [])
  else
    yellow_pages_loop nationality age_min age_max sex_id page_data
      ((total + RESULTS_PER_PAGE - 1) / RESULTS_PER_PAGE) 1 seen []

/- verify_scraping / auto_rattrapage ------------------------------- -/

/-- One row of the completeness report `verify_scraping` writes. -/
structure ReportRow where
  country : String
  total_api : Int
  local_count : Nat
  missing : Int
  coverage : ℚ

/-- Round-half-to-even on rationals, as Python's `round` behaves on the
exact values involved. -/
def round_half_even (q : ℚ) : ℤ :=
  let f := ⌊q⌋
  let r := q - f
  if r < 1 / 2 then f
  else if 1 / 2 < r then f + 1
  else if f % 2 = 0 then f else f + 1

/-- Python `round(q, 1)`.  Python computes on binary doubles; the model
is exact over ℚ. -/
def py_round1 (q : ℚ) : ℚ :=
  (round_half_even (q * 10) : ℚ) / 10

/-- The `coverage_%` column of the report: 0 when the API total is 0,
`round(local / api * 100, 1)` otherwise. -/
def coverage_percent (localCount : Nat) (api : Int) : ℚ :=
  if api = 0 then 0 else py_round1 ((localCount : ℚ) / (api : ℚ) * 100)

/-- Model of `verify_scraping` (yellow_scraper.py): one report row per distinct
nationality of the local CSV (`col` is its `nationality` column), with
the API's reported total abstracted as `api_total`. -/
def verify_scraping (col : List String) (api_total : String → Int) : List ReportRow :=
  let countries := (col.dedup).mergeSort fun a b => decide (a ≤ b)
  countries.map fun c =>
    let localCount := col.countP fun x => x = c
    let api := api_total c
    { country := c
      total_api := api
      local_count := localCount
      missing := max (api - localCount) 0
      coverage := coverage_percent localCount api }

/-- Model of `auto_rattrapage` (yellow_scraper.py), reduced to its observable
retry behaviour: the list of countries it re-fetches.  `report = none`
models an absent `yellow_missing_report.csv` (early return); otherwise
exactly the countries strictly below the coverage threshold are
re-fetched, in report order (the empty-`missing_countries` early return
also fetches nothing). -/
def auto_rattrapage (report : Option (List ReportRow)) (threshold : ℚ) : List String :=
  match report with
  | none => []
  | some df =>
    let missing_countries := (df.filter fun row => row.coverage < threshold).map (·.country)
    if missing_countries.isEmpty then [] else missing_countries

/- rattrapage_par_pays_naissance ----------------------------------- -/

/-- The row dict literal of the birth-country retry pass
`rattrapage_par_pays_naissance` (yellow_scraper.py): only 9 keys. -/
def birth_retry_fields (country : String) (item : JObj) (eid : String)
    (nurl : JValue) : Record :=
  [ ("name", pyGetD item "name" (.jstr "")),
    ("forename", pyGetD item "forename" (.jstr "")),
    ("birth_name", pyGetD item "birth_name" (.jstr "")),
    ("date_of_birth", pyGetD item "date_of_birth" (.jstr "")),
    ("place_of_birth", pyGetD item "place_of_birth" (.jstr "")),
    ("country_of_birth", .jstr country),
    ("nationality", .jstr "UNK"),
    ("entity_id", .jstr eid),
    ("url", nurl) ]

/-- The per-item body of `rattrapage_par_pays_naissance`
(yellow_scraper.py): the dedup key and the 9-field row. -/
def birth_retry_row (country : String) (item : JObj) : Option (JValue × Record) :=
  let eid := pyStrip (pyStr (pyOr (pyGetD item "entity_id" .jnull)
      (pyOr (pyGetD item "id" .jnull) (.jstr ""))))
  match item_link_href item "self" with
  | none => none
  | some nurl => some (pyOr (.jstr eid) nurl, birth_retry_fields country item eid nurl)

/- Derived definitions used by the theorems ----------------------- -/

/-- The back-off sleeps performed by attempts `a, a+1, ..., a+n-1`. -/
def sleepsFrom (a n : Nat) : List ℚ :=
  (List.range n).map fun k => BACKOFF_FACTOR ^ (a + k)

/-- The joint state invariant of the `collect_notices` loop: every
logged fetch was for that segment's queried total, positive and at most
the threshold; and aggregated entity ids are distinct, non-empty and
recorded in `seen_ids`. -/
def collect_inv (env : ScrapeEnv) (st : CollectState) : Prop :=
  (∀ p ∈ st.fetch_log, p.2 = env.query_total p.1 ∧ 0 < p.2 ∧ p.2 ≤ SEGMENT_THRESHOLD) ∧
  ((st.aggregated.map record_eid).Nodup ∧
    ∀ e ∈ st.aggregated.map record_eid, e ≠ "" ∧ st.seen_ids.contains e = true)

/-- The entity id computed for an item by `fetch_all_pages_for_filters`
and by `rattrapage_par_pays_naissance`:
`str(item.get("entity_id") or item.get("id") or "").strip()`. -/
def yellow_eid (item : JObj) : String :=
  pyStrip (pyStr (pyOr (pyGetD item "entity_id" .jnull)
      (pyOr (pyGetD item "id" .jnull) (.jstr ""))))

/-- The non-empty entity ids among a list of rows, in order. -/
def row_eids (rows : List Record) : List String :=
  rows.filterMap fun r => if record_eid r = "" then none else some (record_eid r)

/-- The dedup invariant of `fetch_all_pages_for_filters` over a shared
`seen_ids` set: non-empty entity ids of the rows built so far are
pairwise distinct and recorded (as strings) in the seen set. -/
def fetch_inv (rows : List Record) (seen : List JValue) : Prop :=
  (row_eids rows).Nodup ∧ ∀ e ∈ row_eids rows, jmem (.jstr e) seen = true

/-- The 9 keys of the rows built by `rattrapage_par_pays_naissance`. -/
def BIRTH_RETRY_FIELDS : List String :=
  [ "name", "forename", "birth_name", "date_of_birth", "place_of_birth",
    "country_of_birth", "nationality", "entity_id", "url" ]

/-- The output-field/source-key pairs populated from both payload
shapes by `merge_notice`. -/
def SHARED_FIELD_KEYS : List (String × String) :=
  [ ("name", "name"), ("forename", "forename"),
    ("date_of_birth", "date_of_birth"), ("nationalities", "nationalities"),
    ("sex", "sex_id") ]

/-- Output-field/source-key pairs populated from the detail payload
only. -/
def DETAIL_ONLY_KEYS : List (String × String) :=
  [ ("birth_name", "birth_name"), ("place_of_birth", "place_of_birth"),
    ("height", "height"), ("weight", "weight") ]

/- ----------------------------------------------------------------- -/
/- Theorems                                                          -/
/- ----------------------------------------------------------------- -/

/-- Both age bounds of the midpoint used by `Segment.split`. -/
lemma split_mid_bounds {amin amax : Nat} (h : amin < amax) :
    amin ≤ (amin + amax) / 2 ∧ (amin + amax) / 2 < amax := by
  constructor
  · exact (Nat.le_div_iff_mul_le (by norm_num)).mpr (by omega)
  · exact (Nat.div_lt_iff_lt_mul (by norm_num)).mpr (by omega)

/-- Every child a successful `Segment.split` returns is strictly smaller
under `segMeasure`. -/
lemma splitChildren_measure_lt {t s : Segment} (h : t ∈ splitChildren s) :
    segMeasure t < segMeasure s := by
  rcases s with ⟨amin, amax, sx⟩
  unfold splitChildren Segment.split at h
  by_cases hlt : amin < amax
  · obtain ⟨h1, h2⟩ := split_mid_bounds hlt
    simp only [hlt, if_true, Option.getD_some, List.mem_cons,
      List.mem_singleton, List.not_mem_nil, or_false] at h
    rcases h with rfl | rfl <;> simp only [segMeasure] <;> omega
  · by_cases hsx : sx = (none : Option String)
    · subst hsx
      simp only [hlt, if_false, if_true, Option.getD_some, List.mem_map,
        SEX_SEGMENTS] at h
      obtain ⟨x, _, rfl⟩ := h
      simp only [segMeasure, reduceCtorEq, if_false, if_true]
      omega
    · simp [hlt, hsx] at h

/-- C3.  The recursive segment splitting is bounded: the child relation
induced by `Segment.split` is well-founded (each split either strictly
shrinks the age range or assigns a sex to an unassigned one, and a
single-age sexed segment raises `RequestError` instead of splitting), so
no infinite chain of splits exists and the segment-processing loop of
`collect_notices` cannot split forever. -/
theorem split_relation_wellFounded :
    WellFounded (fun a b : Segment => a ∈ splitChildren b) :=
  Subrelation.wf (fun h => splitChildren_measure_lt h)
    (InvImage.wf segMeasure Nat.lt_wfRel.wf)

/-- C4.  For a segment with `age_min < age_max`, `Segment.split` returns
exactly the two same-sex halves `[age_min, mid]` and `[mid+1, age_max]`,
which partition the original age range (their union is the range and
they are disjoint); for a single-age segment with no sex it returns one
segment per value of `SEX_SEGMENTS` over the same age range. -/
theorem split_partitions_search_space :
    (∀ amin amax sx, amin < amax →
       Segment.split ⟨amin, amax, sx⟩ =
         some [⟨amin, (amin + amax) / 2, sx⟩, ⟨(amin + amax) / 2 + 1, amax, sx⟩] ∧
       (∀ a : Nat, (amin ≤ a ∧ a ≤ amax) ↔
          ((amin ≤ a ∧ a ≤ (amin + amax) / 2) ∨
           ((amin + amax) / 2 + 1 ≤ a ∧ a ≤ amax))) ∧
       (∀ a : Nat, ¬((amin ≤ a ∧ a ≤ (amin + amax) / 2) ∧
           ((amin + amax) / 2 + 1 ≤ a ∧ a ≤ amax)))) ∧
    (∀ amin : Nat,
       Segment.split ⟨amin, amin, none⟩ =
         some (SEX_SEGMENTS.map fun sx => ⟨amin, amin, some sx⟩) ∧
       SEX_SEGMENTS.map (fun sx => (⟨amin, amin, some sx⟩ : Segment)) =
         [⟨amin, amin, some "M"⟩, ⟨amin, amin, some "F"⟩, ⟨amin, amin, some "U"⟩]) := by
  constructor
  · intro amin amax sx hlt
    obtain ⟨h1, h2⟩ := split_mid_bounds hlt
    refine ⟨by simp [Segment.split, hlt], ?_, ?_⟩
    · intro a; omega
    · intro a; omega
  · intro amin
    exact ⟨by simp [Segment.split], rfl⟩

/-- Witness for C4 at the initial segment of `collect_notices`. -/
theorem split_partitions_search_space_witness :
    Segment.split ⟨0, 120, none⟩ =
      some [⟨0, 60, none⟩, ⟨61, 120, none⟩] ∧
    (∀ a : Nat, (0 ≤ a ∧ a ≤ 120) ↔
       ((0 ≤ a ∧ a ≤ 60) ∨ (61 ≤ a ∧ a ≤ 120))) ∧
    (∀ a : Nat, ¬((0 ≤ a ∧ a ≤ 60) ∧ (61 ≤ a ∧ a ≤ 120))) :=
  split_partitions_search_space.1 0 120 none (by norm_num)

/- C10 ------------------------------------------------------------- -/

lemma sleepsFrom_succ (a n : Nat) :
    sleepsFrom a (n + 1) = BACKOFF_FACTOR ^ a :: sleepsFrom (a + 1) n := by
  simp only [sleepsFrom, List.range_succ_eq_map, List.map_cons, Nat.add_zero,
    List.map_map]
  congr 1
  apply List.map_congr_left
  intro k _
  simp only [Function.comp_apply]
  congr 1
  omega

/-- Full characterisation of the retry loop of `http_get_json`, by
downward induction on the remaining attempts. -/
lemma http_go_spec (att : Nat → HttpAttempt) :
    ∀ fuel attempt, attempt + fuel = RETRY_LIMIT + 1 → 1 ≤ attempt →
      attempt ≤ RETRY_LIMIT →
    ((∀ j, attempt ≤ j → j ≤ RETRY_LIMIT → att j = .transportError) →
       http_get_json_go att fuel attempt =
         (.raiseRequestError, sleepsFrom attempt (RETRY_LIMIT - attempt))) ∧
    (∀ v, (http_get_json_go att fuel attempt).1 = .ret v →
       ∃ i, attempt ≤ i ∧ i ≤ RETRY_LIMIT ∧ att i = .ok v) ∧
    ((http_get_json_go att fuel attempt).1 = .raiseRequestError →
       (∀ j, attempt ≤ j → j ≤ RETRY_LIMIT → att j = .transportError) ∨
       (∃ i, attempt ≤ i ∧ i ≤ RETRY_LIMIT ∧ att i = .badJson ∧
          ∀ j, attempt ≤ j → j < i → att j = .transportError)) ∧
    (((∀ j, attempt ≤ j → j ≤ RETRY_LIMIT → att j = .transportError) ∨
      (∃ i, attempt ≤ i ∧ i ≤ RETRY_LIMIT ∧ att i = .badJson ∧
         ∀ j, attempt ≤ j → j < i → att j = .transportError)) →
      (http_get_json_go att fuel attempt).1 = .raiseRequestError) := by
  intro fuel
  induction fuel with
  | zero => intro attempt hsum h1 h5; omega
  | succ n ih =>
    intro attempt hsum h1 h5
    rcases hA : att attempt with _ | _ | v
    · by_cases hlast : attempt = RETRY_LIMIT
      · subst hlast
        have hgo : http_get_json_go att (n + 1) RETRY_LIMIT = (.raiseRequestError, []) := by
          simp [http_get_json_go, hA]
        refine ⟨?_, ?_, ?_, ?_⟩
        · intro _; rw [hgo]; simp [sleepsFrom]
        · intro v hv; rw [hgo] at hv; simp at hv
        · intro _
          left
          intro j hj1 hj2
          have hj : j = RETRY_LIMIT := by omega
          rw [hj]; exact hA
        · intro _; rw [hgo]
      · have hgo : http_get_json_go att (n + 1) attempt =
            ((http_get_json_go att n (attempt + 1)).1,
             BACKOFF_FACTOR ^ attempt :: (http_get_json_go att n (attempt + 1)).2) := by
          simp [http_get_json_go, hA, hlast]
        obtain ⟨ih1, ih2, ih3, ih4⟩ := ih (attempt + 1) (by omega) (by omega) (by omega)
        refine ⟨?_, ?_, ?_, ?_⟩
        · intro hall
          rw [hgo, ih1 (fun j hj1 hj2 => hall j (by omega) hj2)]
          have hsub : RETRY_LIMIT - attempt = (RETRY_LIMIT - (attempt + 1)) + 1 := by omega
          rw [hsub, sleepsFrom_succ]
        · intro v hv
          rw [hgo] at hv
          simp only at hv
          obtain ⟨i, hi1, hi2, hi3⟩ := ih2 v hv
          exact ⟨i, by omega, hi2, hi3⟩
        · intro hr
          rw [hgo] at hr
          simp only at hr
          rcases ih3 hr with hall | ⟨i, hi1, hi2, hi3, hi4⟩
          · left
            intro j hj1 hj2
            by_cases hj : j = attempt
            · rw [hj]; exact hA
            · exact hall j (by omega) hj2
          · right
            refine ⟨i, by omega, hi2, hi3, ?_⟩
            intro j hj1 hj2
            by_cases hj : j = attempt
            · rw [hj]; exact hA
            · exact hi4 j (by omega) hj2
        · intro hpre
          rw [hgo]
          simp only
          apply ih4
          rcases hpre with hall | ⟨i, hi1, hi2, hi3, hi4⟩
          · exact Or.inl fun j hj1 hj2 => hall j (by omega) hj2
          · have hia : attempt < i := by
              rcases Nat.eq_or_lt_of_le hi1 with he | hl
              · exfalso; rw [← he, hA] at hi3; simp at hi3
              · exact hl
            exact Or.inr ⟨i, by omega, hi2, hi3, fun j hj1 hj2 => hi4 j (by omega) hj2⟩
    · have hgo : http_get_json_go att (n + 1) attempt = (.raiseRequestError, []) := by
        simp [http_get_json_go, hA]
      refine ⟨?_, ?_, ?_, ?_⟩
      · intro hall
        exfalso
        have hc := hall attempt le_rfl h5
        rw [hA] at hc; simp at hc
      · intro v hv; rw [hgo] at hv; simp at hv
      · intro _
        right
        exact ⟨attempt, le_rfl, h5, hA, fun j hj1 hj2 => by omega⟩
      · intro _; rw [hgo]
    · have hgo : http_get_json_go att (n + 1) attempt = (.ret v, []) := by
        simp [http_get_json_go, hA]
      refine ⟨?_, ?_, ?_, ?_⟩
      · intro hall
        exfalso
        have hc := hall attempt le_rfl h5
        rw [hA] at hc; simp at hc
      · intro w hw
        rw [hgo] at hw
        simp only [HttpResult.ret.injEq] at hw
        rw [← hw]
        exact ⟨attempt, le_rfl, h5, hA⟩
      · intro hr; rw [hgo] at hr; simp at hr
      · intro hpre
        exfalso
        rcases hpre with hall | ⟨i, hi1, hi2, hi3, hi4⟩
        · have hc := hall attempt le_rfl h5
          rw [hA] at hc; simp at hc
        · rcases Nat.eq_or_lt_of_le hi1 with he | hl
          · rw [← he, hA] at hi3; simp at hi3
          · have hc := hi4 attempt le_rfl hl
            rw [hA] at hc; simp at hc

/-- C10.  `http_get_json` never silently swallows a failure: an
immediately successful attempt returns its payload with no sleep; a
JSON decode failure raises `RequestError` at once, without retrying; if
all `RETRY_LIMIT` (5) attempts hit transport errors it raises
`RequestError` after sleeping the exponentially growing back-offs
1.5^1..1.5^4; every returned payload comes from some attempt that
actually succeeded (the trailing `return {}` is unreachable); and it
raises `RequestError` exactly when either all 5 attempts hit transport
errors or some attempt hit a decode failure after a prefix of transport
errors. -/
theorem http_get_json_retry_spec (att : Nat → HttpAttempt) :
    (∀ v, att 1 = .ok v → http_get_json att = (.ret v, [])) ∧
    (att 1 = .badJson → http_get_json att = (.raiseRequestError, [])) ∧
    ((∀ j, 1 ≤ j → j ≤ RETRY_LIMIT → att j = .transportError) →
       http_get_json att =
         (.raiseRequestError,
          [BACKOFF_FACTOR ^ 1, BACKOFF_FACTOR ^ 2, BACKOFF_FACTOR ^ 3, BACKOFF_FACTOR ^ 4])) ∧
    (∀ v, (http_get_json att).1 = .ret v →
       ∃ i, 1 ≤ i ∧ i ≤ RETRY_LIMIT ∧ att i = .ok v) ∧
    ((http_get_json att).1 = .raiseRequestError ↔
       (∀ j, 1 ≤ j → j ≤ RETRY_LIMIT → att j = .transportError) ∨
       (∃ i, 1 ≤ i ∧ i ≤ RETRY_LIMIT ∧ att i = .badJson ∧
          ∀ j, 1 ≤ j → j < i → att j = .transportError)) := by
  obtain ⟨m1, m2, m3, m4⟩ :=
    http_go_spec att RETRY_LIMIT 1 (by omega) le_rfl (by norm_num [RETRY_LIMIT])
  have he : http_get_json att = http_get_json_go att RETRY_LIMIT 1 := rfl
  refine ⟨?_, ?_, ?_, ?_, ?_⟩
  · intro v h1
    have e2 : http_get_json att = http_get_json_go att (4 + 1) 1 := rfl
    rw [e2]
    simp [http_get_json_go, h1]
  · intro h1
    have e2 : http_get_json att = http_get_json_go att (4 + 1) 1 := rfl
    rw [e2]
    simp [http_get_json_go, h1]
  · intro hall
    rw [he, m1 hall]
    rfl
  · intro v hv
    rw [he] at hv
    exact m2 v hv
  · constructor
    · intro hr
      rw [he] at hr
      exact m3 hr
    · intro hpre
      rw [he]
      exact m4 hpre

/-- Witness for C10: a first attempt that parses is returned unchanged
with no retry and no sleep. -/
theorem http_get_json_retry_spec_witness :
    http_get_json (fun _ => HttpAttempt.ok (.jstr "payload")) =
      (.ret (.jstr "payload"), []) :=
  (http_get_json_retry_spec _).1 _ rfl

/- C9 -------------------------------------------------------------- -/

lemma filterMap_jstr (l : List String) :
    (l.map JValue.jstr).filterMap
      (fun v => match v with | .jstr s => some s | _ => none) = l := by
  induction l with
  | nil => rfl
  | cons x xs ih => simp [ih]

/-- Reloading the payload `_flush` writes restores the label set (up to
the sort, which preserves membership). -/
lemma load_flushPayload (now : String) (segs : List String) :
    (ProgressTracker.load (some (flushPayload now segs))).processed_segments =
      segs.mergeSort (fun a b => decide (a ≤ b)) := by
  simp only [ProgressTracker.load, flushPayload, List.lookup]
  norm_num
  exact filterMap_jstr _

/-- C9.  Progress is resumable: after `mark_done(s)`, `is_done` holds
for every segment with the same `age_min`, `age_max` and `sex` as `s`,
both on the same tracker and on a fresh tracker loaded from the file
content `mark_done` flushed; and the `collect_notices` loop pops a
segment for which `is_done` holds without fetching anything or changing
any other state. -/
theorem progress_mark_done_resumable :
    ∀ (content : Option JValue) (now : String) (s s2 : Segment),
      s2.age_min = s.age_min → s2.age_max = s.age_max → s2.sex = s.sex →
      (((ProgressTracker.load content).mark_done s now).1.is_done s2 = true) ∧
      ((ProgressTracker.load
          (some (((ProgressTracker.load content).mark_done s now).2))).is_done s2 = true) ∧
      (∀ (env : ScrapeEnv) (fuel : Nat) (st : CollectState) (seg : Segment)
         (rest : List Segment),
         st.pending = seg :: rest → st.tracker.is_done seg = true →
         collect_loop env (fuel + 1) st = collect_loop env fuel { st with pending := rest }) := by
  intro content now s s2 e1 e2 e3
  have hs : s2 = s := by cases s; cases s2; simp_all
  subst hs
  refine ⟨?_, ?_, ?_⟩
  · simp only [ProgressTracker.mark_done, ProgressTracker.mark_set, ProgressTracker.is_done]
    exact List.elem_iff.mpr (List.mem_insert_self _ _)
  · simp only [ProgressTracker.mark_done, ProgressTracker.is_done, load_flushPayload,
      ProgressTracker.mark_set]
    apply List.elem_iff.mpr
    rw [List.mem_mergeSort]
    exact List.mem_insert_self _ _
  · intro env fuel st seg rest hp hd
    conv_lhs => rw [collect_loop]
    rw [hp]
    simp [hd]

/-- Witness for C9 at a concrete progress file and segment. -/
theorem progress_mark_done_resumable_witness :
    (((ProgressTracker.load none).mark_done ⟨0, 120, none⟩ "t").1.is_done
        ⟨0, 120, none⟩ = true) ∧
    ((ProgressTracker.load
        (some (((ProgressTracker.load none).mark_done ⟨0, 120, none⟩ "t").2))).is_done
        ⟨0, 120, none⟩ = true) ∧
    (∀ (env : ScrapeEnv) (fuel : Nat) (st : CollectState) (seg : Segment)
       (rest : List Segment),
       st.pending = seg :: rest → st.tracker.is_done seg = true →
       collect_loop env (fuel + 1) st = collect_loop env fuel { st with pending := rest }) :=
  progress_mark_done_resumable none "t" ⟨0, 120, none⟩ ⟨0, 120, none⟩ rfl rfl rfl

/- collect_notices invariants (C1, C2) ----------------------------- -/

/-- A successful `merge_notice` returns the dict literal `merge_fields`
for some resolved link sub-dicts. -/
lemma merge_notice_shape {notice details : JObj} {r : Record}
    (h : merge_notice notice details = some r) :
    ∃ a b c, r = merge_fields notice details a b c := by
  rcases h1 : linkGet (mergeLinks details) "self" with _ | a <;>
    rcases h2 : linkGet (mergeLinks details) "images" with _ | b <;>
      rcases h3 : linkGet (mergeLinks details) "thumbnail" with _ | c <;>
        simp only [merge_notice, h1, h2, h3, Option.some.injEq,
          reduceCtorEq] at h
  exact ⟨a, b, c, h.symm⟩

/-- The entity id of a merged record is the stringified `entity_id` of
the list-entry notice. -/
lemma record_eid_merge_fields (notice details a b c : JObj) :
    record_eid (merge_fields notice details a b c) =
      pyStr (pyGetD notice "entity_id" (.jstr "")) := rfl

/-- The inner notice loop of `collect_notices` preserves the
deduplication invariant: aggregated entity ids are distinct, non-empty,
and recorded in `seen_ids`. -/
lemma process_notices_inv (env : ScrapeEnv) :
    ∀ (notices : List JObj) (seen : List String) (agg : List Record),
      ((agg.map record_eid).Nodup ∧
        ∀ e ∈ agg.map record_eid, e ≠ "" ∧ seen.contains e = true) →
      ∀ res, process_notices env notices seen agg = some res →
        ((res.2.map record_eid).Nodup ∧
          ∀ e ∈ res.2.map record_eid, e ≠ "" ∧ res.1.contains e = true) := by
  intro notices
  induction notices with
  | nil =>
    intro seen agg hinv res h
    simp only [process_notices, Option.some.injEq] at h
    rw [← h]
    exact hinv
  | cons notice rest ih =>
    intro seen agg hinv res h
    simp only [process_notices] at h
    by_cases hskip :
        pyStr (pyGetD notice "entity_id" (.jstr "")) = "" ∨
          seen.contains (pyStr (pyGetD notice "entity_id" (.jstr ""))) = true
    · rw [if_pos hskip] at h
      exact ih seen agg hinv res h
    · rw [if_neg hskip] at h
      push_neg at hskip
      obtain ⟨hne, hnc⟩ := hskip
      rcases hm : merge_notice notice
          (env.fetch_details (pyStr (pyGetD notice "entity_id" (.jstr "")))) with _ | record <;>
        rw [hm] at h
      · simp at h
      · obtain ⟨a, b, c, rfl⟩ := merge_notice_shape hm
        refine ih _ _ ⟨?_, ?_⟩ res h
        · rw [List.map_append]
          rw [List.nodup_append]
          refine ⟨hinv.1, by simp [record_eid_merge_fields], ?_⟩
          intro e he hmem
          simp only [List.map_cons, List.map_nil, List.mem_singleton,
            record_eid_merge_fields] at hmem
          rw [hmem] at he
          have := (hinv.2 _ he).2
          rw [this] at hnc
          exact absurd rfl hnc
        · intro e he
          rw [List.map_append] at he
          rcases List.mem_append.mp he with hold | hnew
          · obtain ⟨h1, h2⟩ := hinv.2 e hold
            refine ⟨h1, ?_⟩
            rw [List.contains_cons, h2, Bool.or_true]
          · simp only [List.map_cons, List.map_nil, List.mem_singleton,
              record_eid_merge_fields] at hnew
            rw [hnew]
            refine ⟨hne, ?_⟩
            rw [List.contains_cons]
            simp

/-- One fuelled run of the `collect_notices` loop preserves the joint
invariant, whatever state it ends in. -/
lemma collect_loop_inv (env : ScrapeEnv) :
    ∀ (fuel : Nat) (st : CollectState), collect_inv env st →
      collect_inv env ((collect_loop env fuel st).state) := by
  intro fuel
  induction fuel with
  | zero => intro st h; exact h
  | succ n ih =>
    intro st h
    rcases hpend : st.pending with _ | ⟨segment, rest⟩ <;>
      simp only [collect_loop, hpend]
    · exact h
    · by_cases hdone : st.tracker.is_done segment = true
      · rw [if_pos hdone]
        exact ih _ h
      · rw [if_neg hdone]
        by_cases h0 : env.query_total segment = 0
        · rw [if_pos h0]
          exact ih _ h
        · rw [if_neg h0]
          by_cases hbig : SEGMENT_THRESHOLD < env.query_total segment
          · rw [if_pos hbig]
            rcases hsplit : segment.split with _ | children
            · exact h
            · exact ih _ h
          · rw [if_neg hbig]
            rcases hpn : process_notices env
                (env.fetch_segment segment (env.query_total segment))
                st.seen_ids st.aggregated with _ | pr
            · refine ⟨?_, h.2⟩
              intro p hp
              rcases List.mem_append.mp hp with hold | hnew
              · exact h.1 p hold
              · rw [List.mem_singleton] at hnew
                rw [hnew]
                exact ⟨rfl, Nat.pos_of_ne_zero h0, le_of_not_lt hbig⟩
            · rcases pr with ⟨seen, agg⟩
              apply ih
              refine ⟨?_, ?_⟩
              · intro p hp
                rcases List.mem_append.mp hp with hold | hnew
                · exact h.1 p hold
                · rw [List.mem_singleton] at hnew
                  rw [hnew]
                  exact ⟨rfl, Nat.pos_of_ne_zero h0, le_of_not_lt hbig⟩
              · exact process_notices_inv env _ _ _ h.2 (seen, agg) hpn

/-- The invariant holds at the initial state of `collect_notices`. -/
lemma collect_inv_init (env : ScrapeEnv) :
    collect_inv env
      { pending := [{ age_min := 0, age_max := 120, sex := none }]
        tracker := ProgressTracker.load env.progress_content
        seen_ids := []
        aggregated := []
        fetch_log := [] } := by
  refine ⟨?_, ?_, ?_⟩ <;> simp

/-- C2.  `fetch_segment` is only ever invoked on a segment whose queried
total is positive and at most `SEGMENT_THRESHOLD` (320): every entry of
the fetch log of any run of `collect_notices` records that segment's
queried total, which is at most the threshold (a larger total is split
and re-queued instead). -/
theorem fetch_segment_only_under_threshold (env : ScrapeEnv) (fuel : Nat) :
    ∀ p ∈ ((collect_notices env fuel).state).fetch_log,
      p.2 = env.query_total p.1 ∧ 0 < p.2 ∧ p.2 ≤ SEGMENT_THRESHOLD :=
  (collect_loop_inv env fuel _ (collect_inv_init env)).1

/-- Witness for C2: a run over an environment reporting one notice for
every segment fetches the initial segment with total 1 ≤ 320. -/
theorem fetch_segment_only_under_threshold_witness :
    ((⟨0, 120, none⟩, 1) : Segment × Nat).2 =
      (ScrapeEnv.mk (fun _ => 1) (fun _ _ => []) (fun _ => []) none).query_total
        (⟨0, 120, none⟩ : Segment) ∧
    0 < ((⟨0, 120, none⟩, 1) : Segment × Nat).2 ∧
    ((⟨0, 120, none⟩, 1) : Segment × Nat).2 ≤ SEGMENT_THRESHOLD :=
  fetch_segment_only_under_threshold
    (ScrapeEnv.mk (fun _ => 1) (fun _ _ => []) (fun _ => []) none) 2
    (⟨0, 120, none⟩, 1) (by decide)

/- fetch_all_pages_for_filters invariants (C1) --------------------- -/

/-- A successful `yellow_row` is the dict literal `yellow_row_fields`
over the resolved link values and joins, keyed as in the source. -/
lemma yellow_row_shape {nat : Option String} {amin amax : Option Int}
    {sx : Option String} {page : Nat} {item : JObj} {k : JValue} {row : Record}
    (h : yellow_row nat amin amax sx page item = some (k, row)) :
    ∃ nurl imagesUrl thumbUrl nats eyes hairs langs,
      item_link_href item "self" = some nurl ∧
      item_link_href item "images" = some imagesUrl ∧
      item_link_href item "thumbnail" = some thumbUrl ∧
      row = yellow_row_fields nat amin amax sx item (yellow_eid item)
        nurl imagesUrl thumbUrl nats eyes hairs langs ∧
      k = pyOr (.jstr (yellow_eid item)) (pyOr nurl
        (.jstr (optPyStr nat ++ "|" ++ optPyStr sx ++ "|" ++
                optIntPyStr amin ++ "|" ++ toString page ++ "|" ++
                pyStr (pyGetD item "name" (.jstr ""))))) := by
  rcases h1 : item_link_href item "self" with _ | nurl
  · simp [yellow_row, h1] at h
  rcases h2 : pyJoin ";" (pyGetD item "nationalities" (.jarr [])) with _ | nats
  · simp [yellow_row, h1, h2] at h
  rcases h3 : pyJoin ";" (pyGetD item "eyes_colors_id" (.jarr [])) with _ | eyes
  · simp [yellow_row, h1, h2, h3] at h
  rcases h4 : pyJoin ";" (pyGetD item "hairs_id" (.jarr [])) with _ | hairs
  · simp [yellow_row, h1, h2, h3, h4] at h
  rcases h5 : pyJoin ";" (pyGetD item "languages_spoken_ids" (.jarr [])) with _ | langs
  · simp [yellow_row, h1, h2, h3, h4, h5] at h
  rcases h6 : item_link_href item "images" with _ | imagesUrl
  · simp [yellow_row, h1, h2, h3, h4, h5, h6] at h
  rcases h7 : item_link_href item "thumbnail" with _ | thumbUrl
  · simp [yellow_row, h1, h2, h3, h4, h5, h6, h7] at h
  simp only [yellow_row, h1, h2, h3, h4, h5, h6, h7, Option.some.injEq,
    Prod.mk.injEq] at h
  exact ⟨nurl, imagesUrl, thumbUrl, nats, eyes, hairs, langs, rfl, rfl, rfl,
    h.2.symm, h.1.symm⟩

/-- The entity id stored in a yellow row, and the dedup key used for a
row whose entity id is non-empty. -/
lemma yellow_row_eid {nat : Option String} {amin amax : Option Int}
    {sx : Option String} {page : Nat} {item : JObj} {k : JValue} {row : Record}
    (h : yellow_row nat amin amax sx page item = some (k, row)) :
    record_eid row = yellow_eid item ∧
    (yellow_eid item ≠ "" → k = .jstr (yellow_eid item)) := by
  obtain ⟨nurl, imagesUrl, thumbUrl, nats, eyes, hairs, langs, _, _, _, hrow, hk⟩ :=
    yellow_row_shape h
  constructor
  · rw [hrow]
    rfl
  · intro hne
    rw [hk]
    simp only [pyOr, pyTruthy]
    rw [if_pos (by simpa using hne)]

lemma jmem_cons (v x : JValue) (l : List JValue) :
    jmem v (x :: l) = (jeq v x || jmem v l) := by
  simp [jmem]

lemma row_eids_append (r1 r2 : List Record) :
    row_eids (r1 ++ r2) = row_eids r1 ++ row_eids r2 :=
  List.filterMap_append _ _ _

/-- The item loop of `fetch_all_pages_for_filters` preserves the dedup
invariant, also relative to rows accumulated by earlier calls sharing
the same seen set. -/
lemma yellow_items_loop_fetch_inv (nat : Option String) (amin amax : Option Int)
    (sx : Option String) (page : Nat) (prev : List Record) :
    ∀ (items : List JObj) (seen : List JValue) (rows : List Record),
      fetch_inv (prev ++ rows) seen →
      ∀ res, yellow_items_loop nat amin amax sx page items seen rows = some res →
        fetch_inv (prev ++ res.2) res.1 := by
  intro items
  induction items with
  | nil =>
    intro seen rows hinv res h
    simp only [yellow_items_loop, Option.some.injEq] at h
    rw [← h]
    exact hinv
  | cons item rest ih =>
    intro seen rows hinv res h
    rcases hr : yellow_row nat amin amax sx page item with _ | kr
    · simp [yellow_items_loop, hr] at h
    · rcases kr with ⟨key, row⟩
      simp only [yellow_items_loop, hr] at h
      obtain ⟨heid, hkey⟩ := yellow_row_eid hr
      by_cases hm : jmem key seen = true
      · rw [if_pos hm] at h
        exact ih seen rows hinv res h
      · rw [if_neg hm] at h
        refine ih _ _ ?_ res h
        rw [← List.append_assoc]
        by_cases he : yellow_eid item = ""
        · have h0 : row_eids [row] = [] := by simp [row_eids, heid, he]
          constructor
          · rw [row_eids_append, h0, List.append_nil]
            exact hinv.1
          · intro e hee
            rw [row_eids_append, h0, List.append_nil] at hee
            rw [jmem_cons, hinv.2 e hee]
            simp
        · have hk := hkey he
          have h1 : row_eids [row] = [yellow_eid item] := by
            simp [row_eids, heid, he]
          constructor
          · rw [row_eids_append, h1, List.nodup_append]
            refine ⟨hinv.1, List.nodup_singleton _, ?_⟩
            intro e hee hmem
            rw [List.mem_singleton] at hmem
            subst hmem
            rw [hk] at hm
            exact hm (hinv.2 _ hee)
          · intro e hee
            rw [row_eids_append, h1] at hee
            rcases List.mem_append.mp hee with hold | hnew
            · rw [jmem_cons, hinv.2 e hold]
              simp
            · rw [List.mem_singleton] at hnew
              subst hnew
              rw [jmem_cons, hk, jeq]
              simp

/-- The page loop of `fetch_all_pages_for_filters` preserves the dedup
invariant. -/
lemma yellow_pages_loop_fetch_inv (nat : Option String) (amin amax : Option Int)
    (sx : Option String) (pd : Nat → JValue) (prev : List Record) :
    ∀ (n page : Nat) (seen : List JValue) (rows : List Record),
      fetch_inv (prev ++ rows) seen →
      ∀ res, yellow_pages_loop nat amin amax sx pd n page seen rows = some res →
        fetch_inv (prev ++ res.2) res.1 := by
  intro n
  induction n with
  | zero =>
    intro page seen rows hinv res h
    simp only [yellow_pages_loop, Option.some.injEq] at h
    rw [← h]
    exact hinv
  | succ n ih =>
    intro page seen rows hinv res h
    rcases hi : iter_notices (pd page) with _ | items
    · simp [yellow_pages_loop, hi] at h
    · rcases hl : yellow_items_loop nat amin amax sx page items seen rows with _ | pr
      · simp [yellow_pages_loop, hi, hl] at h
      · simp only [yellow_pages_loop, hi, hl] at h
        rcases pr with ⟨seen2, rows2⟩
        exact ih (page + 1) seen2 rows2
          (yellow_items_loop_fetch_inv nat amin amax sx page prev items seen rows
            hinv (seen2, rows2) hl) res h

/-- Function `fetch_all_pages_for_filters` preserves the dedup invariant. -/
lemma fetch_all_pages_fetch_inv {nat : Option String} {amin amax : Option Int}
    {sx : Option String} {total : Nat} {pd : Nat → JValue} {seen : List JValue}
    {prev : List Record} (hinv : fetch_inv prev seen) :
    ∀ res, fetch_all_pages_for_filters nat amin amax sx total pd seen = some res →
      fetch_inv (prev ++ res.2) res.1 := by
  intro res h
  unfold fetch_all_pages_for_filters at h
  by_cases ht : total = 0
  · rw [if_pos ht] at h
    simp only [Option.some.injEq] at h
    rw [← h]
    simpa using hinv
  · rw [if_neg ht] at h
    exact yellow_pages_loop_fetch_inv nat amin amax sx pd prev _ 1 seen []
      (by simpa using hinv) res h

/-- C1 (amended).  Each run of `collect_notices` aggregates records with
pairwise-distinct entity ids (empty ids are skipped outright there); and
across runs of `fetch_all_pages_for_filters` over a shared seen-ids set,
no two rows carry the same non-empty entity id.  (Rows whose payload
lacks both `entity_id` and `id` all carry the empty entity id and are
deduplicated by URL or by a synthesised key instead — see the
counterexample for the unamended claim.) -/
theorem entity_id_unique_per_run :
    (∀ (env : ScrapeEnv) (fuel : Nat),
       (((collect_notices env fuel).state).aggregated.map record_eid).Nodup) ∧
    (∀ (nationality : Option String) (amin amax : Option Int) (sx : Option String)
       (total : Nat) (page_data : Nat → JValue) (seen : List JValue)
       (prev : List Record),
       fetch_inv prev seen →
       ∀ res, fetch_all_pages_for_filters nationality amin amax sx total
           page_data seen = some res →
         fetch_inv (prev ++ res.2) res.1) := by
  constructor
  · intro env fuel
    exact (collect_loop_inv env fuel _ (collect_inv_init env)).2.1
  · intro nationality amin amax sx total page_data seen prev hinv res h
    exact fetch_all_pages_fetch_inv hinv res h

/-- Witness for C1 at a one-page run producing a single row. -/
theorem entity_id_unique_per_run_witness :
    fetch_inv
      ([] ++ ((fetch_all_pages_for_filters none none none none 1
          (fun _ => .jobj [("_embedded", .jobj [("notices",
            .jarr [.jobj [("entity_id", .jstr "E1")]])])])
          []).getD ([], [])).2)
      (((fetch_all_pages_for_filters none none none none 1
          (fun _ => .jobj [("_embedded", .jobj [("notices",
            .jarr [.jobj [("entity_id", .jstr "E1")]])])])
          []).getD ([], [])).1) :=
  entity_id_unique_per_run.2 none none none none 1
    (fun _ => .jobj [("_embedded", .jobj [("notices",
      .jarr [.jobj [("entity_id", .jstr "E1")]])])]) [] []
    ⟨by simp [row_eids], by simp [row_eids]⟩ _ rfl

/-- Counterexample to C1 as stated: two payload items with no
`entity_id` and no `id` but distinct self links yield two rows that both
carry the entity id `""`, so `entity_id` does not uniquely identify a
record of `fetch_all_pages_for_filters`. -/
theorem entity_id_unique_per_run_counterexample :
    Option.map (fun p => p.2.map record_eid)
      (fetch_all_pages_for_filters none none none none 2
        (fun _ => .jobj [("_embedded", .jobj [("notices", .jarr
          [ .jobj [("_links", .jobj [("self", .jobj [("href", .jstr "u1")])])],
            .jobj [("_links", .jobj [("self", .jobj [("href", .jstr "u2")])])]
          ])])])
        []) = some ["", ""] ∧
    ¬ (["", ""] : List String).Nodup := by
  refine ⟨rfl, ?_⟩
  decide

/- C7 -------------------------------------------------------------- -/

/-- A successful `birth_retry_row` is the 9-field dict literal
`birth_retry_fields`, keyed by entity id or URL. -/
lemma birth_retry_row_shape {country : String} {item : JObj} {k : JValue}
    {row : Record} (h : birth_retry_row country item = some (k, row)) :
    ∃ nurl, item_link_href item "self" = some nurl ∧
      row = birth_retry_fields country item (yellow_eid item) nurl ∧
      k = pyOr (.jstr (yellow_eid item)) nurl := by
  rcases h1 : item_link_href item "self" with _ | nurl
  · simp [birth_retry_row, h1] at h
  · simp only [birth_retry_row, h1, Option.some.injEq, Prod.mk.injEq] at h
    exact ⟨nurl, rfl, h.2.symm, h.1.symm⟩

/-- Every row the item loop appends satisfies a property that holds of
every successful `yellow_row` output. -/
lemma yellow_items_loop_rows_pred (P : Record → Prop) (nat : Option String)
    (amin amax : Option Int) (sx : Option String) (page : Nat) :
    ∀ (items : List JObj) (seen : List JValue) (rows : List Record),
      (∀ item ∈ items, ∀ k row,
        yellow_row nat amin amax sx page item = some (k, row) → P row) →
      (∀ r ∈ rows, P r) →
      ∀ res, yellow_items_loop nat amin amax sx page items seen rows = some res →
        ∀ r ∈ res.2, P r := by
  intro items
  induction items with
  | nil =>
    intro seen rows _ hrows res h r hr
    simp only [yellow_items_loop, Option.some.injEq] at h
    rw [← h] at hr
    exact hrows r hr
  | cons item rest ih =>
    intro seen rows hitems hrows res h
    rcases hr : yellow_row nat amin amax sx page item with _ | kr
    · simp [yellow_items_loop, hr] at h
    · rcases kr with ⟨key, row⟩
      simp only [yellow_items_loop, hr] at h
      by_cases hm : jmem key seen = true
      · rw [if_pos hm] at h
        exact ih seen rows (fun it hit => hitems it (List.mem_cons_of_mem _ hit))
          hrows res h
      · rw [if_neg hm] at h
        refine ih _ _ (fun it hit => hitems it (List.mem_cons_of_mem _ hit)) ?_ res h
        intro r hrr
        rcases List.mem_append.mp hrr with hold | hnew
        · exact hrows r hold
        · rw [List.mem_singleton] at hnew
          rw [hnew]
          exact hitems item (List.mem_cons_self _ _) key row hr

/-- Every row the page loop appends satisfies a property that holds of
every successful `yellow_row` output over items of the fetched pages. -/
lemma yellow_pages_loop_rows_pred (P : Record → Prop) (nat : Option String)
    (amin amax : Option Int) (sx : Option String) (pd : Nat → JValue) :
    ∀ (n page : Nat) (seen : List JValue) (rows : List Record),
      (∀ (pg : Nat) (items : List JObj), iter_notices (pd pg) = some items →
        ∀ item ∈ items, ∀ k row,
          yellow_row nat amin amax sx pg item = some (k, row) → P row) →
      (∀ r ∈ rows, P r) →
      ∀ res, yellow_pages_loop nat amin amax sx pd n page seen rows = some res →
        ∀ r ∈ res.2, P r := by
  intro n
  induction n with
  | zero =>
    intro page seen rows _ hrows res h r hr
    simp only [yellow_pages_loop, Option.some.injEq] at h
    rw [← h] at hr
    exact hrows r hr
  | succ n ih =>
    intro page seen rows hpages hrows res h
    rcases hi : iter_notices (pd page) with _ | items
    · simp [yellow_pages_loop, hi] at h
    · rcases hl : yellow_items_loop nat amin amax sx page items seen rows with _ | pr
      · simp [yellow_pages_loop, hi, hl] at h
      · simp only [yellow_pages_loop, hi, hl] at h
        rcases pr with ⟨seen2, rows2⟩
        refine ih (page + 1) seen2 rows2 hpages ?_ res h
        exact yellow_items_loop_rows_pred P nat amin amax sx page items seen rows
          (hpages page items hi) hrows (seen2, rows2) hl

/-- Every row `fetch_all_pages_for_filters` returns satisfies a property
that holds of every successful `yellow_row` output over fetched items. -/
lemma fetch_all_pages_rows_pred (P : Record → Prop) {nat : Option String}
    {amin amax : Option Int} {sx : Option String} {total : Nat}
    {pd : Nat → JValue} {seen : List JValue}
    (hyp : ∀ (pg : Nat) (items : List JObj), iter_notices (pd pg) = some items →
      ∀ item ∈ items, ∀ k row,
        yellow_row nat amin amax sx pg item = some (k, row) → P row) :
    ∀ res, fetch_all_pages_for_filters nat amin amax sx total pd seen = some res →
      ∀ r ∈ res.2, P r := by
  intro res h
  unfold fetch_all_pages_for_filters at h
  by_cases ht : total = 0
  · rw [if_pos ht] at h
    simp only [Option.some.injEq] at h
    rw [← h]
    simp
  · rw [if_neg ht] at h
    exact yellow_pages_loop_rows_pred P nat amin amax sx pd _ 1 seen [] hyp
      (by simp) res h

/-- C7 (amended).  `merge_notice` always returns a record whose keys are
exactly the 27 names of `OUTPUT_FIELDS`; `extract_notice_info` always
returns a record with exactly its 12 fixed keys; every row
`fetch_all_pages_for_filters` builds has exactly the script's 27 CSV
fieldnames — but the rows appended by the birth-country retry pass
(`rattrapage_par_pays_naissance`), written into the same output family,
have only the fixed 9-key subset `BIRTH_RETRY_FIELDS`. -/
theorem record_keys_fixed :
    (∀ (notice details : JObj) (r : Record),
       merge_notice notice details = some r → r.map Prod.fst = OUTPUT_FIELDS) ∧
    (∀ notice : JObj, (extract_notice_info notice).map Prod.fst = EXTRACT_FIELDS) ∧
    (∀ (nationality : Option String) (amin amax : Option Int) (sx : Option String)
       (total : Nat) (page_data : Nat → JValue) (seen : List JValue) res,
       fetch_all_pages_for_filters nationality amin amax sx total page_data seen =
         some res →
       ∀ r ∈ res.2, r.map Prod.fst = YELLOW_FIELDNAMES) ∧
    (∀ (country : String) (item : JObj) (k : JValue) (row : Record),
       birth_retry_row country item = some (k, row) →
       row.map Prod.fst = BIRTH_RETRY_FIELDS) := by
  refine ⟨?_, ?_, ?_, ?_⟩
  · intro notice details r h
    obtain ⟨a, b, c, rfl⟩ := merge_notice_shape h
    rfl
  · intro notice
    rfl
  · intro nationality amin amax sx total page_data seen res h r hr
    refine fetch_all_pages_rows_pred (fun r => r.map Prod.fst = YELLOW_FIELDNAMES)
      ?_ res h r hr
    intro pg items _ item _ k row hrow
    obtain ⟨nurl, iU, tU, nats, eyes, hairs, langs, _, _, _, hrw, _⟩ :=
      yellow_row_shape hrow
    rw [hrw]
    rfl
  · intro country item k row h
    obtain ⟨nurl, _, hrw, _⟩ := birth_retry_row_shape h
    rw [hrw]
    rfl

/-- Witness for C7: a merge over empty payloads carries exactly the 27
output fields. -/
theorem record_keys_fixed_witness :
    (merge_fields [] [] [] [] []).map Prod.fst = OUTPUT_FIELDS :=
  record_keys_fixed.1 [] [] (merge_fields [] [] [] [] []) rfl

/-- Counterexample to C7 as stated: a birth-country retry row has only 9
keys, not its script's fixed 27-column set. -/
theorem record_keys_fixed_counterexample :
    Option.map (fun p => p.2.map Prod.fst) (birth_retry_row "AF" []) =
      some ["name", "forename", "birth_name", "date_of_birth", "place_of_birth",
            "country_of_birth", "nationality", "entity_id", "url"] ∧
    ¬ (["name", "forename", "birth_name", "date_of_birth", "place_of_birth",
        "country_of_birth", "nationality", "entity_id", "url"] = YELLOW_FIELDNAMES) := by
  refine ⟨rfl, ?_⟩
  decide

/- C8 -------------------------------------------------------------- -/

/-- A value `lookup` finds is a value of the dict. -/
lemma lookup_val_mem {l : JObj} {k : String} {v : JValue}
    (h : l.lookup k = some v) : ∃ k2, (k2, v) ∈ l := by
  induction l with
  | nil => simp [List.lookup] at h
  | cons kv tl ih =>
    rcases kv with ⟨k1, v1⟩
    by_cases hk : k == k1
    · simp [List.lookup, hk] at h
      exact ⟨k1, by rw [← h]; exact List.mem_cons_self _ _⟩
    · simp only [List.lookup, hk] at h
      obtain ⟨k2, hm⟩ := ih h
      exact ⟨k2, List.mem_cons_of_mem _ hm⟩

/-- Python `d.get(key, default)` yields a string whenever every value of the dict
is a string. -/
lemma pyGetD_isStr {item : JObj} (hstr : ∀ kv ∈ item, kv.2.isStr = true)
    (key : String) (d : String) : (pyGetD item key (.jstr d)).isStr = true := by
  unfold pyGetD
  rcases hl : item.lookup key with _ | v
  · rfl
  · obtain ⟨k2, hm⟩ := lookup_val_mem hl
    exact hstr (k2, v) hm

/-- Over a string-valued item, a successful link lookup yields a string
(the `_links` key must be absent, and the href defaults to `""`). -/
lemma item_link_href_isStr {item : JObj}
    (hstr : ∀ kv ∈ item, kv.2.isStr = true) {key : String} {u : JValue}
    (h : item_link_href item key = some u) : u.isStr = true := by
  rcases hl : item.lookup "_links" with _ | v
  · have hv : item_link_href item key = some (.jstr "") := by
      simp [item_link_href, pyGetD, hl, getObjOrCrash, List.lookup]
    rw [hv] at h
    simp only [Option.some.injEq] at h
    rw [← h]
    rfl
  · obtain ⟨k2, hm⟩ := lookup_val_mem hl
    have hv := hstr (k2, v) hm
    cases v <;> simp [JValue.isStr] at hv
    simp [item_link_href, pyGetD, hl, getObjOrCrash] at h

/-- Every value of a yellow row over a string-valued item is a string,
when the age filters are unset and the links resolved to strings. -/
lemma yellow_row_fields_values_isStr {nat : Option String} {sx : Option String}
    {item : JObj} {eid : String} {nurl imagesUrl thumbUrl : JValue}
    {nats eyes hairs langs : String}
    (hstr : ∀ kv ∈ item, kv.2.isStr = true)
    (h1 : nurl.isStr = true) (h2 : imagesUrl.isStr = true)
    (h3 : thumbUrl.isStr = true) :
    ∀ kv ∈ yellow_row_fields nat none none sx item eid nurl imagesUrl thumbUrl
        nats eyes hairs langs, kv.2.isStr = true := by
  intro kv hmem
  simp only [yellow_row_fields, List.mem_cons, List.not_mem_nil, or_false] at hmem
  rcases hmem with rfl | rfl | rfl | rfl | rfl | rfl | rfl | rfl | rfl | rfl |
    rfl | rfl | rfl | rfl | rfl | rfl | rfl | rfl | rfl | rfl | rfl | rfl |
    rfl | rfl | rfl | rfl | rfl
  all_goals first
    | rfl
    | exact pyGetD_isStr hstr _ _
    | exact h1
    | exact h2
    | exact h3
    | (rcases sx with _ | s
       · exact pyGetD_isStr hstr _ _
       · dsimp only
         by_cases hs : s = ""
         · rw [if_pos hs]; exact pyGetD_isStr hstr _ _
         · rw [if_neg hs]; rfl)

/-- Every value of `merge_notice` output is a string, by construction. -/
lemma merge_fields_values_isStr (notice details a b c : JObj) :
    ∀ kv ∈ merge_fields notice details a b c, kv.2.isStr = true := by
  intro kv hmem
  simp only [merge_fields, List.mem_cons, List.not_mem_nil, or_false] at hmem
  rcases hmem with rfl | rfl | rfl | rfl | rfl | rfl | rfl | rfl | rfl | rfl |
    rfl | rfl | rfl | rfl | rfl | rfl | rfl | rfl | rfl | rfl | rfl | rfl |
    rfl | rfl | rfl | rfl | rfl <;> rfl

/-- Every value of `extract_notice_info` is a string whenever the
payload's values are strings. -/
lemma extract_values_isStr {notice : JObj}
    (hstr : ∀ kv ∈ notice, kv.2.isStr = true) :
    ∀ kv ∈ extract_notice_info notice, kv.2.isStr = true := by
  intro kv hmem
  simp only [extract_notice_info, List.mem_cons, List.not_mem_nil, or_false] at hmem
  rcases hmem with rfl | rfl | rfl | rfl | rfl | rfl | rfl | rfl | rfl | rfl |
    rfl | rfl
  all_goals first
    | rfl
    | exact pyGetD_isStr hstr _ _

/-- C8 (amended).  Every value of a record `merge_notice` returns is a
string.  `extract_notice_info` and the rows of
`fetch_all_pages_for_filters` copy payload values through unchanged
(with string defaults), so their values are strings provided every
payload value is a string — and, for fetch rows, provided the integer
`age_min`/`age_max` filters are unset, since those are stored as-is. -/
theorem record_values_strings :
    (∀ (notice details : JObj) (r : Record), merge_notice notice details = some r →
       ∀ kv ∈ r, kv.2.isStr = true) ∧
    (∀ notice : JObj, (∀ kv ∈ notice, kv.2.isStr = true) →
       ∀ kv ∈ extract_notice_info notice, kv.2.isStr = true) ∧
    (∀ (nationality sx : Option String) (total : Nat) (page_data : Nat → JValue)
       (seen : List JValue),
       (∀ pg items, iter_notices (page_data pg) = some items →
          ∀ item ∈ items, ∀ kv ∈ item, kv.2.isStr = true) →
       ∀ res, fetch_all_pages_for_filters nationality none none sx total
           page_data seen = some res →
         ∀ r ∈ res.2, ∀ kv ∈ r, kv.2.isStr = true) := by
  refine ⟨?_, ?_, ?_⟩
  · intro notice details r h kv hkv
    obtain ⟨A, B, C, rfl⟩ := merge_notice_shape h
    exact merge_fields_values_isStr notice details A B C kv hkv
  · exact fun notice h => extract_values_isStr h
  · intro nationality sx total page_data seen hyp res h r hr
    refine fetch_all_pages_rows_pred (fun r => ∀ kv ∈ r, kv.2.isStr = true)
      ?_ res h r hr
    intro pg items hit item hitem k row hrow
    obtain ⟨nurl, iU, tU, nats, eyes, hairs, langs, e1, e2, e3, hrw, _⟩ :=
      yellow_row_shape hrow
    have hstr := hyp pg items hit item hitem
    rw [hrw]
    exact yellow_row_fields_values_isStr hstr (item_link_href_isStr hstr e1)
      (item_link_href_isStr hstr e2) (item_link_href_isStr hstr e3)

/-- Witness for C8: the default field of an empty red-notice payload is
a string. -/
theorem record_values_strings_witness : (JValue.jstr "N/A").isStr = true :=
  record_values_strings.2.1 [] (by simp) ("entity_id", .jstr "N/A")
    (List.Mem.head _)

/-- Counterexample to C8 as stated: `extract_notice_info` stores a
numeric payload weight unchanged, so that field value is not a string. -/
theorem record_values_strings_counterexample :
    (extract_notice_info [("weight", .jnum 80)]).lookup "weight" =
      some (.jnum 80) ∧
    (JValue.jnum 80).isStr = false := ⟨rfl, rfl⟩

/- C5 -------------------------------------------------------------- -/

/-- A detail-only field carries the rendered detail value, which is
empty when the key is absent. -/
lemma detail_only_val {details : JObj} {srcKey : String} {o : Option JValue}
    (he : o = some (.jstr (safe_get details srcKey))) :
    o = some (.jstr (safe_get details srcKey)) ∧
    (details.lookup srcKey = none → o = some (.jstr "")) := by
  refine ⟨he, fun habs => ?_⟩
  rw [he]
  simp [safe_get, habs]

/-- The three-way fallback of `x or y` on rendered field values. -/
lemma fallback_three (dv nv : String) (o : Option JValue)
    (he : o = some (.jstr (pyOrS dv nv))) :
    (dv ≠ "" → o = some (.jstr dv)) ∧ (dv = "" → o = some (.jstr nv)) ∧
    (dv = "" → nv = "" → o = some (.jstr "")) := by
  refine ⟨fun hd => ?_, fun hd => ?_, fun hd hn => ?_⟩ <;> rw [he]
  · simp [pyOrS, hd]
  · simp [pyOrS, hd]
  · simp [pyOrS, hd, hn]

/-- C5.  Each shared field of a merged record (name, forename,
date_of_birth, nationalities, sex) equals the detail payload's rendered
value when that value is non-empty, otherwise the list-entry's value,
otherwise the empty string; each detail-only field (birth_name,
place_of_birth, height, weight) always carries the detail payload's
rendered value, which is the empty string when the detail payload lacks
the key. -/
theorem merge_notice_field_fallback :
    ∀ (notice details : JObj) (r : Record), merge_notice notice details = some r →
      (∀ outKey srcKey, (outKey, srcKey) ∈ SHARED_FIELD_KEYS →
         (safe_get details srcKey ≠ "" →
            r.lookup outKey = some (.jstr (safe_get details srcKey))) ∧
         (safe_get details srcKey = "" →
            r.lookup outKey = some (.jstr (safe_get notice srcKey))) ∧
         (safe_get details srcKey = "" → safe_get notice srcKey = "" →
            r.lookup outKey = some (.jstr ""))) ∧
      (∀ outKey srcKey, (outKey, srcKey) ∈ DETAIL_ONLY_KEYS →
         r.lookup outKey = some (.jstr (safe_get details srcKey)) ∧
         (details.lookup srcKey = none →
            r.lookup outKey = some (.jstr ""))) := by
  intro notice details r h
  obtain ⟨a, b, c, rfl⟩ := merge_notice_shape h
  constructor
  · intro outKey srcKey hmem
    simp only [SHARED_FIELD_KEYS, List.mem_cons, List.not_mem_nil, or_false,
      Prod.mk.injEq] at hmem
    rcases hmem with ⟨rfl, rfl⟩ | ⟨rfl, rfl⟩ | ⟨rfl, rfl⟩ | ⟨rfl, rfl⟩ | ⟨rfl, rfl⟩
    · exact fallback_three _ _ _ rfl
    · exact fallback_three _ _ _ rfl
    · exact fallback_three _ _ _ rfl
    · exact fallback_three _ _ _ rfl
    · exact fallback_three _ _ _ rfl
  · intro outKey srcKey hmem
    simp only [DETAIL_ONLY_KEYS, List.mem_cons, List.not_mem_nil, or_false,
      Prod.mk.injEq] at hmem
    rcases hmem with ⟨rfl, rfl⟩ | ⟨rfl, rfl⟩ | ⟨rfl, rfl⟩ | ⟨rfl, rfl⟩
    · exact detail_only_val rfl
    · exact detail_only_val rfl
    · exact detail_only_val rfl
    · exact detail_only_val rfl

/-- Witness for C5: a detail name overrides the list-entry name. -/
theorem merge_notice_field_fallback_witness :
    (merge_fields [("name", .jstr "LIST")] [("name", .jstr "DET")] [] [] []).lookup
        "name" = some (.jstr (safe_get [("name", .jstr "DET")] "name")) :=
  ((merge_notice_field_fallback [("name", .jstr "LIST")] [("name", .jstr "DET")]
      (merge_fields [("name", .jstr "LIST")] [("name", .jstr "DET")] [] [] [])
      rfl).1 "name" "name" (by decide)).1 (by decide)

/- C6 -------------------------------------------------------------- -/

/-- C6.  `auto_rattrapage` re-fetches exactly the countries whose
`coverage_%` in the report built by `verify_scraping` (local CSV count
versus the API's reported total per nationality) is strictly below the
threshold; it retries nothing when the report file is absent or when no
row is below the threshold. -/
theorem auto_rattrapage_selection :
    (∀ (col : List String) (api_total : String → Int) (t : ℚ) (c : String),
       c ∈ auto_rattrapage (some (verify_scraping col api_total)) t ↔
         c ∈ col ∧
           coverage_percent (col.countP fun x => x = c) (api_total c) < t) ∧
    (∀ t : ℚ, auto_rattrapage none t = []) ∧
    (∀ (df : List ReportRow) (t : ℚ), (∀ row ∈ df, ¬ row.coverage < t) →
       auto_rattrapage (some df) t = []) := by
  refine ⟨?_, fun t => rfl, ?_⟩
  · intro col api_total t c
    simp only [auto_rattrapage]
    have hmem : ∀ l : List String,
        (c ∈ if l.isEmpty then ([] : List String) else l) ↔ c ∈ l := by
      intro l
      by_cases hl : l.isEmpty
      · rw [if_pos hl]
        rw [List.isEmpty_iff] at hl
        rw [hl]
      · rw [if_neg hl]
    rw [hmem]
    constructor
    · intro hc
      obtain ⟨row, hrowmem, hrowc⟩ := List.mem_map.mp hc
      obtain ⟨hrowin, hcov⟩ := List.mem_filter.mp hrowmem
      obtain ⟨c2, hc2, hrowdef⟩ := List.mem_map.mp hrowin
      rw [← hrowdef] at hrowc hcov
      simp only at hrowc hcov
      subst hrowc
      refine ⟨List.mem_dedup.mp (List.mem_mergeSort.mp hc2), ?_⟩
      simpa using hcov
    · rintro ⟨hcol, hcov⟩
      apply List.mem_map.mpr
      refine ⟨_, List.mem_filter.mpr
        ⟨List.mem_map.mpr ⟨c, List.mem_mergeSort.mpr (List.mem_dedup.mpr hcol), rfl⟩,
         ?_⟩, rfl⟩
      simpa using hcov
  · intro df t hall
    simp only [auto_rattrapage]
    have hfil : df.filter (fun row => row.coverage < t) = [] := by
      rw [List.filter_eq_nil_iff]
      intro row hrow
      simpa using hall row hrow
    rw [hfil]
    rfl

/-- Witness for C6: a country at 50% coverage is retried under the
default threshold of 100. -/
theorem auto_rattrapage_selection_witness :
    "AA" ∈ auto_rattrapage (some (verify_scraping ["AA"] (fun _ => 2))) 100 :=
  (auto_rattrapage_selection.1 ["AA"] (fun _ => 2) 100 "AA").mpr
    ⟨by decide, by norm_num [coverage_percent, py_round1, round_half_even]⟩
